import Mathlib

set_option autoImplicit false

namespace InterViewAI

/-! Shallow embedding of the session-persistence core of the InterView AI
repository: the domain model, the SQLite-backed durable repository
(`src/src/infra/persistence/sqlite_repository.py`), the Redis-backed fast
store (`src/src/infra/persistence/redis_store.py`), and the orchestrator
surface exercised by `src/tests/test_orchestrator.py`.

Modelling conventions: Python `datetime` values are embedded as `Int`
timestamps (ISO-format serialisation and parsing are mutually inverse, and
lexicographic comparison of ISO strings agrees with chronological order);
Python floats (`REAL` columns) are embedded as `ℚ`; SQLite `NULL`-able
values as `Option`; a raised-and-propagated exception as `Except.error`. -/

/-- Modelled from the spec: the module `src.core.domain.models` is imported by
the persistence layer and the tests but is not among the available sources.
Interview lifecycle states (spec section 3); `value` below is the string
stored in the `sessions.state` column. -/
inductive InterviewState where
  | idle
  | intro
  | listening
  | evaluating
  | complete
  deriving DecidableEq

/-- String value of a state, as persisted by `session.state.value`. -/
def InterviewState.value : InterviewState → String
  | .idle => "idle"
  | .intro => "intro"
  | .listening => "listening"
  | .evaluating => "evaluating"
  | .complete => "complete"

/-- Parsing a state string, as done by `InterviewState(row["state"])`; an
unknown string raises in Python, embedded here as `none`. -/
def InterviewState.ofValue : String → Option InterviewState
  | "idle" => some .idle
  | "intro" => some .intro
  | "listening" => some .listening
  | "evaluating" => some .evaluating
  | "complete" => some .complete
  | _ => none

/-- Modelled from the spec: coaching alert severity enumeration
(`CoachingAlertLevel`, spec section 3: an ordered severity enum such as
OK/WARNING/CRITICAL). -/
inductive CoachingAlertLevel where
  | ok
  | warning
  | critical
  deriving DecidableEq

/-- String value of an alert level, as persisted by `alert_level.value`. -/
def CoachingAlertLevel.value : CoachingAlertLevel → String
  | .ok => "ok"
  | .warning => "warning"
  | .critical => "critical"

/-- Parsing an alert-level string, as done by
`CoachingAlertLevel(ex_row["alert_level"])`; unknown strings raise,
embedded as `none`. -/
def CoachingAlertLevel.ofValue : String → Option CoachingAlertLevel
  | "ok" => some .ok
  | "warning" => some .warning
  | "critical" => some .critical
  | _ => none

/-- Modelled from the spec: `AnswerEvaluation` of `src.core.domain.models`
(spec section 3: four bounded integer scores plus two free-text notes). -/
structure AnswerEvaluation where
  technical_accuracy : Int
  clarity : Int
  depth : Int
  completeness : Int
  improvement_tip : String
  positive_note : String
  deriving DecidableEq

/-- Modelled from the spec: `CoachingFeedback` of `src.core.domain.models`
(spec section 3). -/
structure CoachingFeedback where
  volume_status : String
  pace_status : String
  filler_count : Int
  words_per_minute : ℚ
  primary_alert : String
  alert_level : CoachingAlertLevel
  deriving DecidableEq

/-- Modelled from the spec: `InterviewExchange` of `src.core.domain.models`
(spec section 3: question, transcribed answer, duration, timestamp, and
optional evaluation / coaching sub-records). -/
structure InterviewExchange where
  question : String
  answer : String
  answer_duration_seconds : ℚ
  evaluation : Option AnswerEvaluation
  coaching_feedback : Option CoachingFeedback
  timestamp : Int
  deriving DecidableEq

/-- Modelled from the spec: `InterviewSession` of `src.core.domain.models`
(spec section 3). -/
structure InterviewSession where
  session_id : String
  state : InterviewState
  resume_text : String
  job_description : String
  current_question : Option String
  started_at : Option Int
  ended_at : Option Int
  total_questions_asked : Int
  total_filler_words : Int
  average_wpm : ℚ
  exchanges : List InterviewExchange
  deriving DecidableEq

/-! The relational state of `SQLiteSessionRepository`: one record type per
table of `_initialize_schema`, and a `DB` value holding the four tables plus
the `AUTOINCREMENT` counter of `exchanges.id` (SQLite `AUTOINCREMENT` never
reuses an id, even after deletion). -/

/-- A row of the `sessions` table. -/
structure SessionRow where
  session_id : String
  state : String
  resume_text : String
  job_description : String
  current_question : Option String
  started_at : Option Int
  ended_at : Option Int
  total_questions_asked : Int
  total_filler_words : Int
  average_wpm : ℚ
  created_at : Int
  updated_at : Int
  deriving DecidableEq

/-- A row of the `exchanges` table. -/
structure ExchangeRow where
  id : Nat
  session_id : String
  question : String
  answer : String
  answer_duration_seconds : ℚ
  timestamp : Int
  created_at : Int
  deriving DecidableEq

/-- A row of the `evaluations` table. -/
structure EvaluationRow where
  exchange_id : Nat
  technical_accuracy : Int
  clarity : Int
  depth : Int
  completeness : Int
  improvement_tip : String
  positive_note : String
  deriving DecidableEq

/-- A row of the `coaching_feedback` table. -/
structure CoachingRow where
  exchange_id : Nat
  volume_status : String
  pace_status : String
  filler_count : Int
  words_per_minute : ℚ
  primary_alert : String
  alert_level : String
  deriving DecidableEq

/-- The SQLite database state. -/
structure DB where
  sessions : List SessionRow
  exchanges : List ExchangeRow
  evaluations : List EvaluationRow
  coaching_feedback : List CoachingRow
  next_exchange_id : Nat
  deriving DecidableEq

/-- The freshly created (empty) database. -/
def DB.empty : DB :=
  { sessions := [], exchanges := [], evaluations := [], coaching_feedback := [],
    next_exchange_id := 0 }

/-- The `INSERT INTO sessions` of `save` (new-session branch): every scalar
field is written, with `created_at = updated_at = now`. -/
def insertSessionRow (s : InterviewSession) (now : Int) : SessionRow :=
  { session_id := s.session_id, state := s.state.value, resume_text := s.resume_text,
    job_description := s.job_description, current_question := s.current_question,
    started_at := s.started_at, ended_at := s.ended_at,
    total_questions_asked := s.total_questions_asked,
    total_filler_words := s.total_filler_words, average_wpm := s.average_wpm,
    created_at := now, updated_at := now }

/-- The `UPDATE sessions SET ... WHERE session_id = ?` of `save` applied to one
row: only the mutable columns are rewritten (`resume_text`, `job_description`,
`started_at` and `created_at` are left untouched by the UPDATE statement). -/
def updateSessionRow (s : InterviewSession) (now : Int) (r : SessionRow) : SessionRow :=
  if r.session_id = s.session_id then
    { r with state := s.state.value, current_question := s.current_question,
             ended_at := s.ended_at, total_questions_asked := s.total_questions_asked,
             total_filler_words := s.total_filler_words, average_wpm := s.average_wpm,
             updated_at := now }
  else r

/-- The `INSERT INTO exchanges` row for one in-memory exchange, with the
assigned autoincrement id `exId`. -/
def mkExchangeRow (exId : Nat) (sid : String) (now : Int) (ex : InterviewExchange) : ExchangeRow :=
  { id := exId, session_id := sid, question := ex.question, answer := ex.answer,
    answer_duration_seconds := ex.answer_duration_seconds, timestamp := ex.timestamp,
    created_at := now }

/-- The `INSERT INTO evaluations` row for exchange id `exId`. -/
def mkEvaluationRow (exId : Nat) (ev : AnswerEvaluation) : EvaluationRow :=
  { exchange_id := exId, technical_accuracy := ev.technical_accuracy,
    clarity := ev.clarity, depth := ev.depth, completeness := ev.completeness,
    improvement_tip := ev.improvement_tip, positive_note := ev.positive_note }

/-- The `INSERT INTO coaching_feedback` row for exchange id `exId`. -/
def mkCoachingRow (exId : Nat) (cf : CoachingFeedback) : CoachingRow :=
  { exchange_id := exId, volume_status := cf.volume_status, pace_status := cf.pace_status,
    filler_count := cf.filler_count, words_per_minute := cf.words_per_minute,
    primary_alert := cf.primary_alert, alert_level := cf.alert_level.value }

/-- The session upsert of `save`: `alreadyExists` is the result of the
`SELECT session_id FROM sessions WHERE session_id = ?` existence probe. -/
def sessionUpsertStep (s : InterviewSession) (now : Int) (alreadyExists : Bool) : DB → DB :=
  fun d =>
    if alreadyExists then { d with sessions := d.sessions.map (updateSessionRow s now) }
    else { d with sessions := d.sessions ++ [insertSessionRow s now] }

/-- The `DELETE FROM exchanges WHERE session_id = ?` of `save`. -/
def deleteExchangesStep (sid : String) : DB → DB :=
  fun d => { d with exchanges := d.exchanges.filter (fun e => e.session_id ≠ sid) }

/-- One `INSERT INTO exchanges`: the row receives the next autoincrement id. -/
def insertExchangeStep (sid : String) (now : Int) (ex : InterviewExchange) : DB → DB :=
  fun d =>
    { d with exchanges := d.exchanges ++ [mkExchangeRow d.next_exchange_id sid now ex],
             next_exchange_id := d.next_exchange_id + 1 }

/-- One `INSERT INTO evaluations`: `cursor.lastrowid` is the id of the
exchange row just inserted, i.e. the counter minus one. -/
def insertEvaluationStep (ev : AnswerEvaluation) : DB → DB :=
  fun d => { d with evaluations := d.evaluations ++ [mkEvaluationRow (d.next_exchange_id - 1) ev] }

/-- One `INSERT INTO coaching_feedback`, keyed by `cursor.lastrowid`. -/
def insertCoachingStep (cf : CoachingFeedback) : DB → DB :=
  fun d =>
    { d with coaching_feedback := d.coaching_feedback ++ [mkCoachingRow (d.next_exchange_id - 1) cf] }

/-- The write statements executed for one exchange inside the `for exchange in
session.exchanges` loop of `save`. -/
def exchangeSteps (sid : String) (now : Int) (ex : InterviewExchange) : List (DB → DB) :=
  [insertExchangeStep sid now ex]
    ++ (match ex.evaluation with
        | some ev => [insertEvaluationStep ev]
        | none => [])
    ++ (match ex.coaching_feedback with
        | some cf => [insertCoachingStep cf]
        | none => [])

/-- Apply a list of statements in order. -/
def applyAll (d : DB) (steps : List (DB → DB)) : DB :=
  steps.foldl (fun d' st => st d') d

/-- The exchange-persisting loop of `save`. -/
def saveExchanges (d : DB) (sid : String) (now : Int) : List InterviewExchange → DB
  | [] => d
  | ex :: rest => saveExchanges (applyAll d (exchangeSteps sid now ex)) sid now rest

/-- `SQLiteSessionRepository.save` (success path, lines 152-277): probe for the
session row, upsert it, delete this session's exchange rows, and re-insert the
full in-memory exchange list together with evaluation / coaching children. -/
def save (db : DB) (s : InterviewSession) (now : Int) : DB :=
  let alreadyExists := (db.sessions.find? (fun r => r.session_id = s.session_id)).isSome
  let db1 := sessionUpsertStep s now alreadyExists db
  let db2 := deleteExchangesStep s.session_id db1
  saveExchanges db2 s.session_id now s.exchanges

/-- The full statement list of one `save` call, derived from the committed
state `db` (the existence probe runs before any write, so it reads `db`). -/
def saveSteps (db : DB) (s : InterviewSession) (now : Int) : List (DB → DB) :=
  sessionUpsertStep s now ((db.sessions.find? (fun r => r.session_id = s.session_id)).isSome)
    :: deleteExchangesStep s.session_id
    :: (s.exchanges.map (exchangeSteps s.session_id now)).flatten

/-- Run a statement list against a working copy, aborting (like a raised
`sqlite3` exception) when the statement at index `failAt` is reached. -/
def applySteps (w : DB) (steps : List (DB → DB)) (idx : Nat) (failAt : Option Nat) : Option DB :=
  match steps with
  | [] => some w
  | st :: rest =>
      if failAt = some idx then none else applySteps (st w) rest (idx + 1) failAt

/-- `save` as one transaction: statements mutate a working copy; a failure at
any statement (or at the final `conn.commit()`, index `= length`) triggers
`conn.rollback()` — the committed database is unchanged — and the exception is
re-raised (`Except.error`). On success the working copy is committed. -/
def saveTx (db : DB) (s : InterviewSession) (now : Int) (failAt : Option Nat) :
    Except Unit Unit × DB :=
  let steps := saveSteps db s now
  match applySteps db steps 0 failAt with
  | none => (Except.error (), db)
  | some w => if failAt = some steps.length then (Except.error (), db) else (Except.ok (), w)

/-- Reconstruction of `AnswerEvaluation` from a joined row. -/
def evaluationFromRow (r : EvaluationRow) : AnswerEvaluation :=
  { technical_accuracy := r.technical_accuracy, clarity := r.clarity, depth := r.depth,
    completeness := r.completeness, improvement_tip := r.improvement_tip,
    positive_note := r.positive_note }

/-- Rebuild one `InterviewExchange` from an exchange row and the LEFT JOINed
`evaluations` / `coaching_feedback` rows (present iff a child row matches the
exchange id, mirroring the `is not None` column probes of `load`); an invalid
persisted alert-level string raises in Python, embedded as `none`. -/
def reconstructExchange (db : DB) (r : ExchangeRow) : Option InterviewExchange :=
  let evaluation := (db.evaluations.find? (fun v => v.exchange_id = r.id)).map evaluationFromRow
  match db.coaching_feedback.find? (fun c => c.exchange_id = r.id) with
  | none =>
      some { question := r.question, answer := r.answer,
             answer_duration_seconds := r.answer_duration_seconds,
             evaluation := evaluation, coaching_feedback := none, timestamp := r.timestamp }
  | some c =>
      match CoachingAlertLevel.ofValue c.alert_level with
      | none => none
      | some lvl =>
          some { question := r.question, answer := r.answer,
                 answer_duration_seconds := r.answer_duration_seconds,
                 evaluation := evaluation,
                 coaching_feedback := some
                   { volume_status := c.volume_status, pace_status := c.pace_status,
                     filler_count := c.filler_count, words_per_minute := c.words_per_minute,
                     primary_alert := c.primary_alert, alert_level := lvl },
                 timestamp := r.timestamp }

/-- The row loop of `load`: rebuild each exchange in turn, any failure
propagating to the whole call. -/
def loadExchangeList (db : DB) : List ExchangeRow → Option (List InterviewExchange)
  | [] => some []
  | r :: rest =>
      match reconstructExchange db r with
      | none => none
      | some ex =>
          match loadExchangeList db rest with
          | none => none
          | some exs => some (ex :: exs)

/-- The `ORDER BY e.id` of the exchange query. -/
def sortById (rows : List ExchangeRow) : List ExchangeRow :=
  List.insertionSort (fun a b => a.id ≤ b.id) rows

/-- `SQLiteSessionRepository.load` (lines 279-370). `failAt` injects a
lower-level read failure at the session query (0) or the exchange query (1);
the code catches every exception and returns `None`, so every failure path
yields `none`, exactly like a missing session row. -/
def load (db : DB) (sid : String) (failAt : Option Nat) : Option InterviewSession :=
  if failAt = some 0 then none else
  match db.sessions.find? (fun r => r.session_id = sid) with
  | none => none
  | some row =>
      if failAt = some 1 then none else
      match InterviewState.ofValue row.state with
      | none => none
      | some st =>
          match loadExchangeList db (sortById (db.exchanges.filter (fun e => e.session_id = sid))) with
          | none => none
          | some exs =>
              some { session_id := row.session_id, state := st, resume_text := row.resume_text,
                     job_description := row.job_description,
                     current_question := row.current_question,
                     started_at := row.started_at, ended_at := row.ended_at,
                     total_questions_asked := row.total_questions_asked,
                     total_filler_words := row.total_filler_words,
                     average_wpm := row.average_wpm, exchanges := exs }

/-- `SQLiteSessionRepository.cleanup_old_sessions` (lines 421-461): collect the
ids of sessions with `created_at < now - max_age_hours`, delete each one's
exchange rows and session row in a loop, and return how many ids were
collected. -/
def cleanup_old_sessions (db : DB) (now : Int) (max_age_hours : Int) : Nat × DB :=
  let cutoff := now - max_age_hours * 3600
  let ids := (db.sessions.filter (fun r => r.created_at < cutoff)).map (fun r => r.session_id)
  let db2 := ids.foldl
    (fun d sid =>
      { d with exchanges := d.exchanges.filter (fun e => e.session_id ≠ sid),
               sessions := d.sessions.filter (fun r => r.session_id ≠ sid) })
    db
  (ids.length, db2)

/-! The orchestrator. Its implementation module `src.app.orchestrator` is not
among the available sources; only `src/tests/test_orchestrator.py` (which
drives it) is. The definitions below are therefore modelled from the spec
(section 4.4) and checked for shape against that test file. -/

/-- Modelled from the spec: the live `InterviewOrchestrator` instance state —
an optional owned session plus the state-machine state (`IDLE` means no
active session, initial and post-reset). -/
structure Orchestrator where
  state : InterviewState
  session : Option InterviewSession
  deriving DecidableEq

/-- Observable side effects of an orchestrator operation: collaborator
invocations and observer callbacks. -/
inductive Effect where
  | stateChange (s : InterviewState)
  | transcribeCall
  | coachCall
  | evaluateCall
  | feedbackCallback
  deriving DecidableEq

/-- Modelled from the spec: the external collaborators `processAnswer`
consults (transcriber, coach, evaluator), as pure response functions
(spec section 6). -/
structure Collaborators where
  transcribe : List Nat → Nat → String
  coachFeedback : List Nat → Nat → CoachingFeedback
  evaluateAnswer : String → String → List InterviewExchange → AnswerEvaluation
  averageWpm : ℚ

/-- Modelled from the spec: `InterviewOrchestrator.process_answer`
(spec section 4.4). With no active session it fails with a session-state
error, touching nothing; otherwise it transitions to `EVALUATING`,
transcribes, computes coaching feedback, evaluates, appends the new
exchange, and updates the running counters, emitting the corresponding
effect trace. Returns (result, resulting orchestrator, effect trace). -/
def process_answer (c : Collaborators) (orch : Orchestrator) (audioBytes : List Nat)
    (sampleRate : Nat) (now : Int) :
    Except Unit (String × CoachingFeedback × AnswerEvaluation) × Orchestrator × List Effect :=
  match orch.session with
  | none => (Except.error (), orch, [])
  | some s =>
      let question := s.current_question.getD ""
      let transcript := c.transcribe audioBytes sampleRate
      let cf := c.coachFeedback audioBytes sampleRate
      let ev := c.evaluateAnswer question transcript s.exchanges
      let ex : InterviewExchange :=
        { question := question, answer := transcript,
          answer_duration_seconds := (audioBytes.length : ℚ) / (sampleRate : ℚ),
          evaluation := some ev, coaching_feedback := some cf, timestamp := now }
      let s2 : InterviewSession :=
        { s with state := .evaluating, exchanges := s.exchanges ++ [ex],
                 total_questions_asked := s.total_questions_asked + 1,
                 total_filler_words := s.total_filler_words + cf.filler_count,
                 average_wpm := c.averageWpm }
      (Except.ok (transcript, cf, ev),
       { state := .evaluating, session := some s2 },
       [Effect.stateChange .evaluating, Effect.transcribeCall, Effect.coachCall,
        Effect.evaluateCall, Effect.feedbackCallback])

/-! The fast store: `RedisSessionStore` of
`src/src/infra/persistence/redis_store.py`. The Redis backend is embedded as
an optional key-value map (`none` when the connection attempt failed); the
in-process fallback is a Python dict from session id to (orchestrator, local
write timestamp). Redis-side command failures are injected via a `Bool`. -/

/-- Python dict assignment `m[k] = v`: replace in place, else append. -/
def dictSet {α : Type} : List (String × α) → String → α → List (String × α)
  | [], k, v => [(k, v)]
  | (k0, v0) :: rest, k, v =>
      if k0 = k then (k, v) :: rest else (k0, v0) :: dictSet rest k v

/-- Python dict lookup `m.get(k)` / `k in m`. -/
def dictGet {α : Type} : List (String × α) → String → Option α
  | [], _ => none
  | (k0, v0) :: rest, k => if k0 = k then some v0 else dictGet rest k

/-- Python `del m[k]` (also total on a missing key, where it is a no-op; the
code only deletes keys it just found). -/
def dictDel {α : Type} (m : List (String × α)) (k : String) : List (String × α) :=
  m.filter (fun kv => kv.1 ≠ k)

/-- `RedisSessionStore` instance state: the optional connected Redis backend
(its keys are `"session:" + id`, embedded here by the raw id, the prefixing
being injective), the in-memory fallback dict, the TTL, and the
`fallback_to_memory` flag. -/
structure FastStore where
  redis : Option (List (String × Orchestrator))
  mem : List (String × (Orchestrator × Int))
  session_ttl_seconds : Int
  fallback_to_memory : Bool

/-- `RedisSessionStore.set_orchestrator` (lines 83-107): with a connected
backend, attempt `setex`; on failure the exception is caught and the value is
written to the in-memory dict stamped `datetime.now().timestamp()` (`now`).
With no backend, write to the in-memory dict directly. Never raises. -/
def set_orchestrator (st : FastStore) (sid : String) (orch : Orchestrator) (now : Int)
    (redisFails : Bool) : FastStore :=
  match st.redis with
  | some data =>
      if redisFails then { st with mem := dictSet st.mem sid (orch, now) }
      else { st with redis := some (dictSet data sid orch) }
  | none => { st with mem := dictSet st.mem sid (orch, now) }

/-- The in-memory branch of `get_orchestrator`: an entry younger than the TTL
is returned; an entry at least TTL old is deleted and `none` returned. -/
def memLookup (st : FastStore) (sid : String) (now : Int) : Option Orchestrator × FastStore :=
  match dictGet st.mem sid with
  | none => (none, st)
  | some (orch, stored_at) =>
      if now - stored_at < st.session_ttl_seconds then (some orch, st)
      else (none, { st with mem := dictDel st.mem sid })

/-- `RedisSessionStore.get_orchestrator` (lines 109-141): query Redis first
when connected; on a hit return it; on a miss or on a raised-and-caught Redis
error fall through to the in-memory dict with its TTL check. -/
def get_orchestrator (st : FastStore) (sid : String) (now : Int) (redisFails : Bool) :
    Option Orchestrator × FastStore :=
  match st.redis with
  | some data =>
      if redisFails then memLookup st sid now
      else
        match dictGet data sid with
        | some orch => (some orch, st)
        | none => memLookup st sid now
  | none => memLookup st sid now

/-- `RedisSessionStore.delete_orchestrator` (lines 143-170): delete from Redis
when connected (a caught Redis error leaves `found` false), then also delete
from the in-memory dict; report found when either side held the key. -/
def delete_orchestrator (st : FastStore) (sid : String) (redisFails : Bool) :
    Bool × FastStore :=
  let redisFound :=
    match st.redis with
    | some data => if redisFails then false else (dictGet data sid).isSome
    | none => false
  let st1 :=
    match st.redis with
    | some data => if redisFails then st else { st with redis := some (dictDel data sid) }
    | none => st
  if (dictGet st1.mem sid).isSome then
    (true, { st1 with mem := dictDel st1.mem sid })
  else
    (redisFound, st1)

/-! Concrete sample data, used by witnesses and counterexamples. -/

/-- A sample evaluation (mirroring the mock of `test_orchestrator.py`). -/
def sampleEval : AnswerEvaluation :=
  { technical_accuracy := 8, clarity := 8, depth := 7, completeness := 8,
    improvement_tip := "add examples", positive_note := "clear answer" }

/-- A sample coaching feedback record. -/
def sampleCF : CoachingFeedback :=
  { volume_status := "OK", pace_status := "OK", filler_count := 2,
    words_per_minute := 125, primary_alert := "", alert_level := .ok }

/-- A sample exchange carrying both optional children. -/
def sampleExchange1 : InterviewExchange :=
  { question := "q1", answer := "a1", answer_duration_seconds := 3 / 2,
    evaluation := some sampleEval, coaching_feedback := some sampleCF, timestamp := 100 }

/-- A sample exchange carrying neither optional child. -/
def sampleExchange2 : InterviewExchange :=
  { question := "q2", answer := "a2", answer_duration_seconds := 2,
    evaluation := none, coaching_feedback := none, timestamp := 200 }

/-- A sample session with two exchanges. -/
def sampleSession : InterviewSession :=
  { session_id := "s1", state := .listening, resume_text := "R", job_description := "J",
    current_question := some "q2", started_at := some 10, ended_at := none,
    total_questions_asked := 2, total_filler_words := 2, average_wpm := 125,
    exchanges := [sampleExchange1, sampleExchange2] }

/-- A second sample session, with a distinct id and no exchanges. -/
def sampleSessionB : InterviewSession :=
  { sampleSession with session_id := "s2", exchanges := [] }

/-- A database holding `sampleSession`, as produced by a fresh `save`. -/
def dbWithSample : DB := save DB.empty sampleSession 0

/-! Helper lemmas about the Python-dict embedding. -/

theorem dictGet_dictSet_self {α : Type} (m : List (String × α)) (k : String) (v : α) :
    dictGet (dictSet m k v) k = some v := by
  induction m with
  | nil => simp [dictSet, dictGet]
  | cons kv rest ih =>
      by_cases h : kv.1 = k
      · simp [dictSet, dictGet, h]
      · simpa [dictSet, dictGet, h] using ih

theorem dictGet_dictDel_self {α : Type} (m : List (String × α)) (k : String) :
    dictGet (dictDel m k) k = none := by
  induction m with
  | nil => simp [dictDel, dictGet]
  | cons kv rest ih =>
      by_cases h : kv.1 = k
      · simpa [dictDel, dictGet, h] using ih
      · simpa [dictDel, dictGet, h] using ih

/-- C5. For every store whose shared backend is connected and with fallback
enabled, a failing shared-backend write makes `set_orchestrator` return
normally (it is a total function — the exception is caught), leaving the
backend untouched and retaining the value in the local fallback dict under
the same key, stamped with the local write time `now`. -/
theorem put_backend_failure_falls_back (st : FastStore)
    (data : List (String × Orchestrator)) (sid : String) (orch : Orchestrator) (now : Int)
    (hredis : st.redis = some data) (hfb : st.fallback_to_memory = true) :
    dictGet (set_orchestrator st sid orch now true).mem sid = some (orch, now) ∧
      (set_orchestrator st sid orch now true).redis = st.redis := by
  simp [set_orchestrator, hredis, dictGet_dictSet_self]

/-- An idle orchestrator instance, for concrete witnesses. -/
def idleOrch : Orchestrator := { state := .idle, session := none }

/-- A concrete store with a connected (empty) backend and empty fallback. -/
def storeConnected : FastStore :=
  { redis := some [], mem := [], session_ttl_seconds := 7200, fallback_to_memory := true }

/-- A concrete store whose backend connection failed. -/
def storeOffline : FastStore :=
  { redis := none, mem := [], session_ttl_seconds := 7200, fallback_to_memory := true }

/-- A concrete store with a connected empty backend and one fallback entry,
written at local time 0. -/
def storeWithMemEntry : FastStore :=
  { redis := some [], mem := [("s1", (idleOrch, 0))], session_ttl_seconds := 7200,
    fallback_to_memory := true }

/-- Witness for C5 at a concrete store. -/
theorem put_backend_failure_falls_back_witness :
    (storeConnected.redis = some [] ∧ storeConnected.fallback_to_memory = true) ∧
      (dictGet (set_orchestrator storeConnected "s1" idleOrch 42 true).mem "s1" =
          some (idleOrch, 42) ∧
        (set_orchestrator storeConnected "s1" idleOrch 42 true).redis = storeConnected.redis) :=
  ⟨⟨rfl, rfl⟩, put_backend_failure_falls_back storeConnected [] "s1" idleOrch 42 rfl rfl⟩

/-- C6. Fallback TTL semantics: with the shared backend unreachable, after a
put at time `t0`, a get at time `t` returns the stored value whenever the
elapsed time is strictly below the TTL, and returns `none` while evicting the
fallback entry whenever the elapsed time is at least the TTL. -/
theorem fallback_ttl_get (st : FastStore) (sid : String) (orch : Orchestrator)
    (t0 t : Int) (b : Bool) (hredis : st.redis = none) :
    (t - t0 < st.session_ttl_seconds →
      get_orchestrator (set_orchestrator st sid orch t0 b) sid t false =
        (some orch, set_orchestrator st sid orch t0 b)) ∧
    (st.session_ttl_seconds ≤ t - t0 →
      (get_orchestrator (set_orchestrator st sid orch t0 b) sid t false).1 = none ∧
      dictGet (get_orchestrator (set_orchestrator st sid orch t0 b) sid t false).2.mem sid =
        none) := by
  constructor
  · intro hlt
    simp [set_orchestrator, hredis, get_orchestrator, memLookup, dictGet_dictSet_self, hlt]
  · intro hge
    have hnlt : ¬ (t - t0 < st.session_ttl_seconds) := not_lt.mpr hge
    simp [set_orchestrator, hredis, get_orchestrator, memLookup, dictGet_dictSet_self, hnlt,
      dictGet_dictDel_self]

/-- Witness for C6 at a concrete store and concrete times on both sides of
the TTL boundary. -/
theorem fallback_ttl_get_witness :
    (storeOffline.redis = none ∧ (10 : Int) - 0 < storeOffline.session_ttl_seconds ∧
      storeOffline.session_ttl_seconds ≤ (9000 : Int) - 0) ∧
      (get_orchestrator (set_orchestrator storeOffline "s1" idleOrch 0 false) "s1" 10 false =
        (some idleOrch, set_orchestrator storeOffline "s1" idleOrch 0 false) ∧
        (get_orchestrator (set_orchestrator storeOffline "s1" idleOrch 0 false) "s1" 9000
            false).1 = none) :=
  ⟨⟨rfl, by norm_num [storeOffline], by norm_num [storeOffline]⟩,
    (fallback_ttl_get storeOffline "s1" idleOrch 0 10 false rfl).1
      (by norm_num [storeOffline]),
    ((fallback_ttl_get storeOffline "s1" idleOrch 0 9000 false rfl).2
      (by norm_num [storeOffline])).1⟩

/-- C8. `delete_orchestrator` (shared backend connected, commands succeeding)
removes the id from both the backend and the fallback dict, and reports the
session present exactly when at least one of the two held it. -/
theorem delete_both_backends (st : FastStore) (data : List (String × Orchestrator))
    (sid : String) (hredis : st.redis = some data) :
    (delete_orchestrator st sid false).1 =
        ((dictGet data sid).isSome || (dictGet st.mem sid).isSome) ∧
      (delete_orchestrator st sid false).2.redis = some (dictDel data sid) ∧
      dictGet (delete_orchestrator st sid false).2.mem sid = none := by
  by_cases hmem : (dictGet st.mem sid).isSome
  · simp [delete_orchestrator, hredis, hmem, dictGet_dictDel_self]
  · have hnone : dictGet st.mem sid = none := by
      cases h : dictGet st.mem sid with
      | none => rfl
      | some v => rw [h] at hmem; simp at hmem
    simp [delete_orchestrator, hredis, hmem, hnone]

/-- Witness for C8: a store where only the fallback dict holds the key. -/
theorem delete_both_backends_witness :
    storeWithMemEntry.redis = some [] ∧
      (delete_orchestrator storeWithMemEntry "s1" false).1 =
        ((dictGet ([] : List (String × Orchestrator)) "s1").isSome ||
          (dictGet storeWithMemEntry.mem "s1").isSome) :=
  ⟨rfl, (delete_both_backends storeWithMemEntry [] "s1" rfl).1⟩

/-- C10. `get_orchestrator` consults the local fallback even when the shared
backend is reachable: a connected backend that yields nothing for the id
(without raising) falls through to the fallback dict, whose unexpired entry
is returned. -/
theorem get_consults_fallback_on_miss (st : FastStore)
    (data : List (String × Orchestrator)) (sid : String) (now : Int)
    (orch : Orchestrator) (t0 : Int) (hredis : st.redis = some data)
    (hmiss : dictGet data sid = none) (hmem : dictGet st.mem sid = some (orch, t0))
    (hfresh : now - t0 < st.session_ttl_seconds) :
    get_orchestrator st sid now false = (some orch, st) := by
  simp [get_orchestrator, hredis, hmiss, memLookup, hmem, hfresh]

/-- Witness for C10: backend connected but empty, fallback holding a fresh
entry. -/
theorem get_consults_fallback_on_miss_witness :
    (storeWithMemEntry.redis = some [] ∧
      dictGet ([] : List (String × Orchestrator)) "s1" = none ∧
      dictGet storeWithMemEntry.mem "s1" = some (idleOrch, 0) ∧
      (10 : Int) - 0 < storeWithMemEntry.session_ttl_seconds) ∧
      get_orchestrator storeWithMemEntry "s1" 10 false = (some idleOrch, storeWithMemEntry) :=
  ⟨⟨rfl, rfl, rfl, by norm_num [storeWithMemEntry]⟩,
    get_consults_fallback_on_miss storeWithMemEntry [] "s1" 10 idleOrch 0 rfl rfl rfl
      (by norm_num [storeWithMemEntry])⟩

/-- C9. `process_answer` invoked on an orchestrator in `IDLE` (no active
session) fails with a session-state error, leaves the orchestrator unchanged
(no exchange recorded), and performs no collaborator call or callback — the
effect trace is empty. -/
theorem process_answer_idle_no_effects (c : Collaborators) (orch : Orchestrator)
    (audioBytes : List Nat) (sampleRate : Nat) (now : Int)
    (hstate : orch.state = .idle) (hsession : orch.session = none) :
    process_answer c orch audioBytes sampleRate now = (Except.error (), orch, []) := by
  simp [process_answer, hsession]

/-- Concrete constant collaborators for witnesses. -/
def sampleCollaborators : Collaborators :=
  { transcribe := fun _ _ => "five years of Python", coachFeedback := fun _ _ => sampleCF,
    evaluateAnswer := fun _ _ _ => sampleEval, averageWpm := 125 }

/-- Witness for C9 at a concrete idle orchestrator and the sample
collaborators. -/
theorem process_answer_idle_no_effects_witness :
    (idleOrch.state = .idle ∧ idleOrch.session = none) ∧
      process_answer sampleCollaborators idleOrch [1, 2] 16000 0 =
        (Except.error (), idleOrch, []) :=
  ⟨⟨rfl, rfl⟩,
    process_answer_idle_no_effects sampleCollaborators idleOrch [1, 2] 16000 0 rfl rfl⟩

/-! Helper lemmas about the transactional step runner. -/

theorem applyAll_cons (d : DB) (st : DB → DB) (rest : List (DB → DB)) :
    applyAll d (st :: rest) = applyAll (st d) rest := rfl

theorem applyAll_append (d : DB) (l1 l2 : List (DB → DB)) :
    applyAll d (l1 ++ l2) = applyAll (applyAll d l1) l2 := by
  simp [applyAll, List.foldl_append]

theorem applySteps_none_eq (steps : List (DB → DB)) :
    ∀ (w : DB) (idx : Nat), applySteps w steps idx none = some (applyAll w steps) := by
  induction steps with
  | nil => intro w idx; simp [applySteps, applyAll]
  | cons st rest ih => intro w idx; simp [applySteps, applyAll_cons, ih]

theorem applySteps_fault_lt (steps : List (DB → DB)) :
    ∀ (w : DB) (idx k : Nat), k < steps.length →
      applySteps w steps idx (some (idx + k)) = none := by
  induction steps with
  | nil => intro w idx k hk; simp at hk
  | cons st rest ih =>
      intro w idx k hk
      cases k with
      | zero => simp [applySteps]
      | succ k' =>
          have hne : ¬ (idx + (k' + 1) = idx) := by omega
          have harg : idx + (k' + 1) = (idx + 1) + k' := by omega
          simp only [applySteps, Option.some.injEq, if_neg hne]
          rw [harg]
          exact ih (st w) (idx + 1) k' (by simpa using hk)

theorem applySteps_fault_ge (steps : List (DB → DB)) :
    ∀ (w : DB) (idx j : Nat), idx + steps.length ≤ j →
      applySteps w steps idx (some j) = some (applyAll w steps) := by
  induction steps with
  | nil => intro w idx j hj; simp [applySteps, applyAll]
  | cons st rest ih =>
      intro w idx j hj
      have hne : ¬ (j = idx) := by simp at hj; omega
      simp only [applySteps, Option.some.injEq, if_neg hne]
      rw [applyAll_cons]
      exact ih (st w) (idx + 1) j (by simp at hj ⊢; omega)

theorem saveExchanges_eq_applyAll (sid : String) (now : Int) :
    ∀ (exs : List InterviewExchange) (d : DB),
      saveExchanges d sid now exs = applyAll d ((exs.map (exchangeSteps sid now)).flatten) := by
  intro exs
  induction exs with
  | nil => intro d; simp [saveExchanges, applyAll]
  | cons ex rest ih => intro d; simp [saveExchanges, applyAll_append, ih]

/-- The direct `save` agrees with running the full statement list. -/
theorem save_eq_applyAll (db : DB) (s : InterviewSession) (now : Int) :
    save db s now = applyAll db (saveSteps db s now) := by
  simp [save, saveSteps, applyAll_cons, ← saveExchanges_eq_applyAll]

/-- A fault-free `save` transaction succeeds and commits the direct `save`. -/
theorem saveTx_none_commits (db : DB) (s : InterviewSession) (now : Int) :
    saveTx db s now none = (Except.ok (), save db s now) := by
  simp [saveTx, applySteps_none_eq, save_eq_applyAll]

/-- C2. `save` is one transaction: a failure injected at any statement of the
save — including the final commit, index `= length` — yields an error to the
caller (the exception is re-raised, not swallowed) and leaves the committed
database exactly as it was before the call. -/
theorem save_failure_rolls_back (db : DB) (s : InterviewSession) (now : Int) (k : Nat)
    (hk : k ≤ (saveSteps db s now).length) :
    saveTx db s now (some k) = (Except.error (), db) := by
  rcases lt_or_eq_of_le hk with hlt | heq
  · have h := applySteps_fault_lt (saveSteps db s now) db 0 k hlt
    rw [Nat.zero_add] at h
    simp [saveTx, h]
  · have h := applySteps_fault_ge (saveSteps db s now) db 0 k (by omega)
    subst heq
    simp [saveTx, h]

/-- Witness for C2: a fault at the very first statement of a concrete save. -/
theorem save_failure_rolls_back_witness :
    0 ≤ (saveSteps DB.empty sampleSession 0).length ∧
      saveTx DB.empty sampleSession 0 (some 0) = (Except.error (), DB.empty) :=
  ⟨Nat.zero_le _, save_failure_rolls_back DB.empty sampleSession 0 0 (Nat.zero_le _)⟩

/-- C4 counterexample: `load` of an existing session with a read failure
injected returns `none` — literally the same value `load` returns for a
missing id — instead of surfacing an error (the code catches the exception,
logs, and returns `None`). -/
theorem load_failure_conflated_cex :
    load dbWithSample "s1" (some 0) = none ∧ load dbWithSample "missing" none = none ∧
      (load dbWithSample "s1" none).isSome = true :=
  ⟨rfl, by decide, by decide⟩

/-- C4 as amended: `load` returns the absent value when no session row
exists, and every lower-level read failure is caught and also returns the
absent value (conflated with not-found, never surfaced as an error). -/
theorem load_failure_returns_absent (db : DB) (sid : String) (k : Nat) (hk : k < 2) :
    load db sid (some k) = none ∧
      (db.sessions.find? (fun r => r.session_id = sid) = none → load db sid none = none) := by
  constructor
  · interval_cases k
    · simp [load]
    · cases h : db.sessions.find? (fun r => r.session_id = sid) <;> simp [load, h]
  · intro h; simp [load, h]

/-- Witness for C4's amended theorem at a concrete database. -/
theorem load_failure_returns_absent_witness :
    0 < 2 ∧ load dbWithSample "s1" (some 0) = none :=
  ⟨by norm_num, (load_failure_returns_absent dbWithSample "s1" 0 (by norm_num)).1⟩

/-! Characterisation of `save` by explicit row lists, used for the round-trip
and idempotence claims. -/

/-- The exchange rows inserted by one `save`, for exchange ids starting at
`base`. -/
def exRowsOf (sid : String) (now : Int) : Nat → List InterviewExchange → List ExchangeRow
  | _, [] => []
  | base, ex :: rest => mkExchangeRow base sid now ex :: exRowsOf sid now (base + 1) rest

/-- The evaluation rows inserted by one `save`. -/
def evRowsOf : Nat → List InterviewExchange → List EvaluationRow
  | _, [] => []
  | base, ex :: rest =>
      (match ex.evaluation with
       | some ev => [mkEvaluationRow base ev]
       | none => []) ++ evRowsOf (base + 1) rest

/-- The coaching rows inserted by one `save`. -/
def cfRowsOf : Nat → List InterviewExchange → List CoachingRow
  | _, [] => []
  | base, ex :: rest =>
      (match ex.coaching_feedback with
       | some cf => [mkCoachingRow base cf]
       | none => []) ++ cfRowsOf (base + 1) rest

/-- The `sessions` table after the upsert half of `save`. -/
def upsertSessions (db : DB) (s : InterviewSession) (now : Int) : List SessionRow :=
  if (db.sessions.find? (fun r => r.session_id = s.session_id)).isSome then
    db.sessions.map (updateSessionRow s now)
  else
    db.sessions ++ [insertSessionRow s now]

theorem saveExchanges_spec (sid : String) (now : Int) :
    ∀ (exs : List InterviewExchange) (d : DB),
      saveExchanges d sid now exs =
        { sessions := d.sessions,
          exchanges := d.exchanges ++ exRowsOf sid now d.next_exchange_id exs,
          evaluations := d.evaluations ++ evRowsOf d.next_exchange_id exs,
          coaching_feedback := d.coaching_feedback ++ cfRowsOf d.next_exchange_id exs,
          next_exchange_id := d.next_exchange_id + exs.length } := by
  intro exs
  induction exs with
  | nil => intro d; simp [saveExchanges, exRowsOf, evRowsOf, cfRowsOf]
  | cons ex rest ih =>
      intro d
      rw [saveExchanges, ih]
      rcases hev : ex.evaluation with _ | ev <;>
        rcases hcf : ex.coaching_feedback with _ | cf <;>
          simp [exchangeSteps, hev, hcf, applyAll, insertExchangeStep, insertEvaluationStep,
            insertCoachingStep, exRowsOf, evRowsOf, cfRowsOf, List.append_assoc] <;>
          omega

/-- `save` in terms of explicit row lists. -/
theorem save_spec (db : DB) (s : InterviewSession) (now : Int) :
    save db s now =
      { sessions := upsertSessions db s now,
        exchanges := db.exchanges.filter (fun e => e.session_id ≠ s.session_id) ++
          exRowsOf s.session_id now db.next_exchange_id s.exchanges,
        evaluations := db.evaluations ++ evRowsOf db.next_exchange_id s.exchanges,
        coaching_feedback := db.coaching_feedback ++ cfRowsOf db.next_exchange_id s.exchanges,
        next_exchange_id := db.next_exchange_id + s.exchanges.length } := by
  show saveExchanges _ s.session_id now s.exchanges = _
  rw [saveExchanges_spec]
  by_cases h : (db.sessions.find? (fun r => r.session_id = s.session_id)).isSome <;>
    simp [sessionUpsertStep, deleteExchangesStep, upsertSessions, h]

/-! Properties of the inserted row lists. -/

theorem exRowsOf_sid (sid : String) (now : Int) :
    ∀ (exs : List InterviewExchange) (base : Nat) (r : ExchangeRow),
      r ∈ exRowsOf sid now base exs → r.session_id = sid := by
  intro exs
  induction exs with
  | nil => intro base r h; simp [exRowsOf] at h
  | cons ex rest ih =>
      intro base r h
      rw [exRowsOf, List.mem_cons] at h
      rcases h with h | h
      · subst h; rfl
      · exact ih (base + 1) r h

theorem exRowsOf_id_ge (sid : String) (now : Int) :
    ∀ (exs : List InterviewExchange) (base : Nat) (r : ExchangeRow),
      r ∈ exRowsOf sid now base exs → base ≤ r.id := by
  intro exs
  induction exs with
  | nil => intro base r h; simp [exRowsOf] at h
  | cons ex rest ih =>
      intro base r h
      rw [exRowsOf, List.mem_cons] at h
      rcases h with h | h
      · subst h; exact le_refl base
      · exact le_trans (Nat.le_succ base) (ih (base + 1) r h)

theorem evRowsOf_id_ge :
    ∀ (exs : List InterviewExchange) (base : Nat) (r : EvaluationRow),
      r ∈ evRowsOf base exs → base ≤ r.exchange_id := by
  intro exs
  induction exs with
  | nil => intro base r h; simp [evRowsOf] at h
  | cons ex rest ih =>
      intro base r h
      rw [evRowsOf, List.mem_append] at h
      rcases h with h | h
      · rcases hev : ex.evaluation with _ | ev <;> rw [hev] at h <;> simp at h
        subst h; exact le_refl base
      · exact le_trans (Nat.le_succ base) (ih (base + 1) r h)

theorem cfRowsOf_id_ge :
    ∀ (exs : List InterviewExchange) (base : Nat) (r : CoachingRow),
      r ∈ cfRowsOf base exs → base ≤ r.exchange_id := by
  intro exs
  induction exs with
  | nil => intro base r h; simp [cfRowsOf] at h
  | cons ex rest ih =>
      intro base r h
      rw [cfRowsOf, List.mem_append] at h
      rcases h with h | h
      · rcases hcf : ex.coaching_feedback with _ | cf <;> rw [hcf] at h <;> simp at h
        subst h; exact le_refl base
      · exact le_trans (Nat.le_succ base) (ih (base + 1) r h)

theorem exRowsOf_sorted (sid : String) (now : Int) :
    ∀ (exs : List InterviewExchange) (base : Nat),
      List.Sorted (fun a b : ExchangeRow => a.id ≤ b.id) (exRowsOf sid now base exs) := by
  intro exs
  induction exs with
  | nil => intro base; simp [exRowsOf]
  | cons ex rest ih =>
      intro base
      rw [exRowsOf, List.sorted_cons]
      constructor
      · intro b hb
        exact le_trans (Nat.le_succ base) (exRowsOf_id_ge sid now rest (base + 1) b hb)
      · exact ih (base + 1)

theorem find?_append_of_none {α : Type} (p : α → Bool) (l1 l2 : List α)
    (h : ∀ x ∈ l1, ¬ p x = true) : (l1 ++ l2).find? p = l2.find? p := by
  induction l1 with
  | nil => simp
  | cons x rest ih =>
      have hx : ¬ p x = true := h x (List.mem_cons_self x rest)
      rw [List.cons_append, List.find?]
      simp only [Bool.not_eq_true] at hx
      rw [hx]
      exact ih (fun y hy => h y (List.mem_cons_of_mem x hy))

theorem evaluationFromRow_mk (base : Nat) (ev : AnswerEvaluation) :
    evaluationFromRow (mkEvaluationRow base ev) = ev := rfl

theorem ofValue_value_state (st : InterviewState) :
    InterviewState.ofValue st.value = some st := by
  cases st <;> rfl

theorem ofValue_value_alert (lvl : CoachingAlertLevel) :
    CoachingAlertLevel.ofValue lvl.value = some lvl := by
  cases lvl <;> rfl

/-- Reconstructing the freshly inserted exchange rows yields exactly the
in-memory exchange list, provided every pre-existing child row's exchange id
lies below the id range of the fresh rows. -/
theorem loadExchangeList_fresh (db' : DB) (sid : String) (now : Int) :
    ∀ (exs : List InterviewExchange) (base : Nat)
      (oldEv : List EvaluationRow) (oldCf : List CoachingRow),
      db'.evaluations = oldEv ++ evRowsOf base exs →
      db'.coaching_feedback = oldCf ++ cfRowsOf base exs →
      (∀ r ∈ oldEv, r.exchange_id < base) →
      (∀ r ∈ oldCf, r.exchange_id < base) →
      loadExchangeList db' (exRowsOf sid now base exs) = some exs := by
  intro exs
  induction exs with
  | nil => intro base oldEv oldCf hEv hCf hbEv hbCf; simp [exRowsOf, loadExchangeList]
  | cons ex rest ih =>
      intro base oldEv oldCf hEv hCf hbEv hbCf
      rw [exRowsOf, loadExchangeList]
      have hEvFind : db'.evaluations.find? (fun v => v.exchange_id = base) =
          (evRowsOf base (ex :: rest)).find? (fun v => v.exchange_id = base) := by
        rw [hEv]
        exact find?_append_of_none _ oldEv _
          (fun x hx => by simp [Nat.ne_of_lt (hbEv x hx)])
      have hCfFind : db'.coaching_feedback.find? (fun c => c.exchange_id = base) =
          (cfRowsOf base (ex :: rest)).find? (fun c => c.exchange_id = base) := by
        rw [hCf]
        exact find?_append_of_none _ oldCf _
          (fun x hx => by simp [Nat.ne_of_lt (hbCf x hx)])
      have hEvTail : (evRowsOf (base + 1) rest).find? (fun v => v.exchange_id = base) = none := by
        rw [List.find?_eq_none]
        intro x hx
        have := evRowsOf_id_ge rest (base + 1) x hx
        simp; omega
      have hCfTail : (cfRowsOf (base + 1) rest).find? (fun c => c.exchange_id = base) = none := by
        rw [List.find?_eq_none]
        intro x hx
        have := cfRowsOf_id_ge rest (base + 1) x hx
        simp; omega
      have hrecon : reconstructExchange db' (mkExchangeRow base sid now ex) = some ex := by
        rw [reconstructExchange]
        rcases hev : ex.evaluation with _ | ev <;> rcases hcf : ex.coaching_feedback with _ | cf <;>
          simp only [mkExchangeRow, hEvFind, hCfFind, evRowsOf, cfRowsOf, hev, hcf,
            List.nil_append, List.singleton_append, List.find?, hEvTail, hCfTail,
            mkEvaluationRow, mkCoachingRow, decide_eq_true_eq] <;>
          simp [evaluationFromRow, ofValue_value_alert, ← hev, ← hcf]
      rw [hrecon]
      have hrest : loadExchangeList db' (exRowsOf sid now (base + 1) rest) = some rest := by
        apply ih (base + 1) (oldEv ++ evRowsOf base [ex] ++ []) (oldCf ++ cfRowsOf base [ex] ++ [])
        · rw [hEv, evRowsOf]
          simp [evRowsOf, List.append_assoc]
        · rw [hCf, cfRowsOf]
          simp [cfRowsOf, List.append_assoc]
        · intro r hr
          simp [evRowsOf] at hr
          rcases hr with hr | hr
          · exact Nat.lt_succ_of_lt (hbEv r hr)
          · rcases hev : ex.evaluation with _ | ev <;> rw [hev] at hr <;> simp at hr
            subst hr; simp [mkEvaluationRow]
        · intro r hr
          simp [cfRowsOf] at hr
          rcases hr with hr | hr
          · exact Nat.lt_succ_of_lt (hbCf r hr)
          · rcases hcf : ex.coaching_feedback with _ | cf <;> rw [hcf] at hr <;> simp at hr
            subst hr; simp [mkCoachingRow]
      rw [hrest]

/-- Well-formedness of a database state, established by the schema and
preserved by the repository's operations: session ids are unique (PRIMARY
KEY), and every child row's `exchange_id` was allocated by the autoincrement
counter, so it lies below the counter. -/
def WF (db : DB) : Prop :=
  db.sessions.Pairwise (fun a b => a.session_id ≠ b.session_id) ∧
    (∀ r ∈ db.evaluations, r.exchange_id < db.next_exchange_id) ∧
    (∀ r ∈ db.coaching_feedback, r.exchange_id < db.next_exchange_id)

/-- Any persisted row for this session id agrees with the session on the
fields the UPDATE branch of `save` does not rewrite. These fields are
immutable once set at session start (spec section 3), so every state the
system reaches satisfies this. -/
def compatibleRow (db : DB) (s : InterviewSession) : Prop :=
  ∀ r ∈ db.sessions, r.session_id = s.session_id →
    r.resume_text = s.resume_text ∧ r.job_description = s.job_description ∧
      r.started_at = s.started_at

theorem updateSessionRow_session_id (s : InterviewSession) (now : Int) (r : SessionRow) :
    (updateSessionRow s now r).session_id = r.session_id := by
  unfold updateSessionRow
  split <;> rfl

theorem find?_map_update (s : InterviewSession) (now : Int) :
    ∀ l : List SessionRow,
      (l.map (updateSessionRow s now)).find? (fun r => r.session_id = s.session_id) =
        (l.find? (fun r => r.session_id = s.session_id)).map (updateSessionRow s now) := by
  intro l
  induction l with
  | nil => simp
  | cons r rest ih =>
      by_cases h : r.session_id = s.session_id <;>
        simp [List.find?, updateSessionRow_session_id, h, ih]

/-- The session row `load` reads back after an upsert: all loaded columns
carry the saved session's fields (the bookkeeping timestamps vary with the
branch taken). -/
theorem upsert_find (db : DB) (s : InterviewSession) (now : Int)
    (hcompat : compatibleRow db s) :
    ∃ created updated,
      (upsertSessions db s now).find? (fun r => r.session_id = s.session_id) =
        some { session_id := s.session_id, state := s.state.value,
               resume_text := s.resume_text, job_description := s.job_description,
               current_question := s.current_question, started_at := s.started_at,
               ended_at := s.ended_at, total_questions_asked := s.total_questions_asked,
               total_filler_words := s.total_filler_words, average_wpm := s.average_wpm,
               created_at := created, updated_at := updated } := by
  unfold upsertSessions
  cases hfind : db.sessions.find? (fun r => r.session_id = s.session_id) with
  | none =>
      refine ⟨now, now, ?_⟩
      simp only [hfind, Option.isSome_none, Bool.false_eq_true, if_false]
      rw [find?_append_of_none _ db.sessions _ ?_]
      · simp [List.find?, insertSessionRow]
      · intro x hx
        have := List.find?_eq_none.mp hfind x hx
        simpa using this
  | some r0 =>
      have hmem : r0 ∈ db.sessions := List.mem_of_find?_eq_some hfind
      have hsid : r0.session_id = s.session_id := by
        have := List.find?_some hfind
        simpa using this
      obtain ⟨h1, h2, h3⟩ := hcompat r0 hmem hsid
      refine ⟨r0.created_at, now, ?_⟩
      simp only [hfind, Option.isSome_some, if_true]
      rw [find?_map_update, hfind]
      simp [updateSessionRow, hsid, h1, h2, h3]

/-- Exchange rows freshly inserted for this session are exactly what the
session-id filter of `load` sees. -/
theorem filter_save_exchanges (db : DB) (s : InterviewSession) (now : Int) :
    (save db s now).exchanges.filter (fun e => e.session_id = s.session_id) =
      exRowsOf s.session_id now db.next_exchange_id s.exchanges := by
  rw [save_spec]
  show (List.filter _ (_ ++ _)) = _
  rw [List.filter_append]
  have h1 : (db.exchanges.filter (fun e => e.session_id ≠ s.session_id)).filter
      (fun e => e.session_id = s.session_id) = [] := by
    rw [List.filter_eq_nil_iff]
    intro a ha
    have := (List.mem_filter.mp ha).2
    simpa using this
  have h2 : (exRowsOf s.session_id now db.next_exchange_id s.exchanges).filter
      (fun e => e.session_id = s.session_id) =
      exRowsOf s.session_id now db.next_exchange_id s.exchanges := by
    rw [List.filter_eq_self]
    intro a ha
    simp [exRowsOf_sid s.session_id now s.exchanges db.next_exchange_id a ha]
  rw [h1, h2, List.nil_append]

/-- C1. Round-trip: saving a session and loading it back by its id
reconstructs the session in every field — scalars, exchange order, and
presence or absence of each exchange's optional evaluation and coaching
children. Hypotheses: the database is well-formed, and any existing row for
this id agrees on the start-immutable columns the UPDATE branch does not
rewrite (always true of reachable states, spec section 3). -/
theorem save_load_roundtrip (db : DB) (s : InterviewSession) (now : Int)
    (hWF : WF db) (hcompat : compatibleRow db s) :
    load (save db s now) s.session_id none = some s := by
  obtain ⟨created, updated, hfind⟩ := upsert_find db s now hcompat
  have hsessions : (save db s now).sessions = upsertSessions db s now := by
    rw [save_spec]
  have hfilter := filter_save_exchanges db s now
  have hsort : sortById ((save db s now).exchanges.filter
      (fun e => e.session_id = s.session_id)) =
      exRowsOf s.session_id now db.next_exchange_id s.exchanges := by
    rw [hfilter]
    exact List.Sorted.insertionSort_eq
      (exRowsOf_sorted s.session_id now s.exchanges db.next_exchange_id)
  have hexs : loadExchangeList (save db s now)
      (exRowsOf s.session_id now db.next_exchange_id s.exchanges) = some s.exchanges := by
    apply loadExchangeList_fresh (save db s now) s.session_id now s.exchanges
      db.next_exchange_id db.evaluations db.coaching_feedback
    · rw [save_spec]
    · rw [save_spec]
    · exact hWF.2.1
    · exact hWF.2.2
  rw [load, hsessions, hfind]
  simp only [if_neg (by simp : ¬ (none : Option Nat) = some 0),
    if_neg (by simp : ¬ (none : Option Nat) = some 1)]
  rw [ofValue_value_state, hsort, hexs]

/-- Witness for C1: round-trip of the two-exchange sample session through an
empty database. -/
theorem save_load_roundtrip_witness :
    (WF DB.empty ∧ compatibleRow DB.empty sampleSession) ∧
      load (save DB.empty sampleSession 0) sampleSession.session_id none =
        some sampleSession :=
  ⟨⟨⟨List.Pairwise.nil, by simp [DB.empty], by simp [DB.empty]⟩,
      by intro r hr; simp [DB.empty] at hr⟩,
    save_load_roundtrip DB.empty sampleSession 0
      ⟨List.Pairwise.nil, by simp [DB.empty], by simp [DB.empty]⟩
      (by intro r hr; simp [DB.empty] at hr)⟩

/-! Idempotence of re-save. -/

theorem filter_key_length_le_one {l : List SessionRow}
    (hU : l.Pairwise (fun a b => a.session_id ≠ b.session_id)) (sid : String) :
    (l.filter (fun r => r.session_id = sid)).length ≤ 1 := by
  induction l with
  | nil => simp
  | cons r rest ih =>
      rw [List.pairwise_cons] at hU
      by_cases h : r.session_id = sid
      · have hnil : rest.filter (fun x => x.session_id = sid) = [] := by
          rw [List.filter_eq_nil_iff]
          intro a ha
          have hne := hU.1 a ha
          simp only [decide_eq_true_eq]
          intro hh
          exact hne (h.trans hh.symm)
        simp [List.filter_cons, h, hnil]
      · simp only [List.filter_cons, decide_eq_true_eq, if_neg h]
        exact ih hU.2

theorem filter_key_map_update (s : InterviewSession) (now : Int) :
    ∀ l : List SessionRow,
      (l.map (updateSessionRow s now)).filter (fun r => r.session_id = s.session_id) =
        (l.filter (fun r => r.session_id = s.session_id)).map (updateSessionRow s now) := by
  intro l
  induction l with
  | nil => simp
  | cons r rest ih =>
      by_cases h : r.session_id = s.session_id <;>
        simp [List.filter_cons, updateSessionRow_session_id, h, ih]

theorem upsert_unique (db : DB) (s : InterviewSession) (now : Int)
    (hU : db.sessions.Pairwise (fun a b => a.session_id ≠ b.session_id)) :
    (upsertSessions db s now).Pairwise (fun a b => a.session_id ≠ b.session_id) := by
  unfold upsertSessions
  cases hfind : db.sessions.find? (fun r => r.session_id = s.session_id) with
  | none =>
      simp only [Option.isSome_none, Bool.false_eq_true, if_false]
      rw [List.pairwise_append]
      refine ⟨hU, List.pairwise_singleton _ _, ?_⟩
      intro a ha b hb
      simp only [List.mem_singleton] at hb
      subst hb
      have := List.find?_eq_none.mp hfind a ha
      simpa [insertSessionRow] using this
  | some r0 =>
      simp only [hfind, Option.isSome_some, if_true]
      refine List.Pairwise.map _ ?_ hU
      intro a b hab
      simpa [updateSessionRow_session_id] using hab

theorem upsert_filter_length (db : DB) (s : InterviewSession) (now : Int)
    (hU : db.sessions.Pairwise (fun a b => a.session_id ≠ b.session_id)) :
    ((upsertSessions db s now).filter (fun r => r.session_id = s.session_id)).length = 1 := by
  unfold upsertSessions
  cases hfind : db.sessions.find? (fun r => r.session_id = s.session_id) with
  | none =>
      simp only [Option.isSome_none, Bool.false_eq_true, if_false]
      rw [List.filter_append]
      have h1 : db.sessions.filter (fun r => r.session_id = s.session_id) = [] := by
        rw [List.filter_eq_nil_iff]
        intro a ha
        have := List.find?_eq_none.mp hfind a ha
        simpa using this
      simp [h1, insertSessionRow]
  | some r0 =>
      simp only [hfind, Option.isSome_some, if_true]
      rw [filter_key_map_update, List.length_map]
      have hle := filter_key_length_le_one hU s.session_id
      have hmem : r0 ∈ db.sessions.filter (fun r => r.session_id = s.session_id) := by
        rw [List.mem_filter]
        exact ⟨List.mem_of_find?_eq_some hfind, by simpa using List.find?_some hfind⟩
      have hpos := List.length_pos_of_mem hmem
      omega

theorem exRowsOf_map_content (sid : String) (now : Int) :
    ∀ (exs : List InterviewExchange) (base : Nat),
      (exRowsOf sid now base exs).map
          (fun r => (r.question, r.answer, r.answer_duration_seconds, r.timestamp)) =
        exs.map (fun e => (e.question, e.answer, e.answer_duration_seconds, e.timestamp)) := by
  intro exs
  induction exs with
  | nil => intro base; simp [exRowsOf]
  | cons ex rest ih => intro base; simp [exRowsOf, mkExchangeRow, ih]

theorem exRowsOf_length (sid : String) (now : Int) :
    ∀ (exs : List InterviewExchange) (base : Nat),
      (exRowsOf sid now base exs).length = exs.length := by
  intro exs
  induction exs with
  | nil => intro base; simp [exRowsOf]
  | cons ex rest ih => intro base; simp [exRowsOf, ih]

theorem save_sessions_unique (db : DB) (s : InterviewSession) (now : Int)
    (hU : db.sessions.Pairwise (fun a b => a.session_id ≠ b.session_id)) :
    (save db s now).sessions.Pairwise (fun a b => a.session_id ≠ b.session_id) := by
  rw [save_spec]
  exact upsert_unique db s now hU

/-- C3. Idempotence of re-save: saving the same session twice leaves exactly
one `sessions` row for its id and exactly as many `exchanges` rows for its id
as the in-memory exchange list, and those rows mirror the in-memory
exchanges' contents in order. -/
theorem resave_no_duplication (db : DB) (s : InterviewSession) (now1 now2 : Int)
    (hU : db.sessions.Pairwise (fun a b => a.session_id ≠ b.session_id)) :
    ((save (save db s now1) s now2).sessions.filter
        (fun r => r.session_id = s.session_id)).length = 1 ∧
      ((save (save db s now1) s now2).exchanges.filter
          (fun e => e.session_id = s.session_id)).length = s.exchanges.length ∧
      ((save (save db s now1) s now2).exchanges.filter
            (fun e => e.session_id = s.session_id)).map
          (fun r => (r.question, r.answer, r.answer_duration_seconds, r.timestamp)) =
        s.exchanges.map
          (fun e => (e.question, e.answer, e.answer_duration_seconds, e.timestamp)) := by
  have hU1 := save_sessions_unique db s now1 hU
  refine ⟨?_, ?_, ?_⟩
  · have hs : (save (save db s now1) s now2).sessions =
        upsertSessions (save db s now1) s now2 := by
      rw [save_spec]
    rw [hs]
    exact upsert_filter_length _ s now2 hU1
  · rw [filter_save_exchanges]
    exact exRowsOf_length s.session_id now2 s.exchanges _
  · rw [filter_save_exchanges]
    exact exRowsOf_map_content s.session_id now2 s.exchanges _

/-- Witness for C3: double save of the sample session into the empty
database. -/
theorem resave_no_duplication_witness :
    DB.empty.sessions.Pairwise (fun a b => a.session_id ≠ b.session_id) ∧
      ((save (save DB.empty sampleSession 1) sampleSession 2).sessions.filter
          (fun r => r.session_id = sampleSession.session_id)).length = 1 :=
  ⟨List.Pairwise.nil,
    (resave_no_duplication DB.empty sampleSession 1 2 List.Pairwise.nil).1⟩

/-! Age-based cleanup. -/

theorem pairwise_key_eq {l : List SessionRow}
    (hU : l.Pairwise (fun a b => a.session_id ≠ b.session_id)) {a b : SessionRow}
    (ha : a ∈ l) (hb : b ∈ l) (hk : a.session_id = b.session_id) : a = b := by
  induction l with
  | nil => simp at ha
  | cons r rest ih =>
      rw [List.pairwise_cons] at hU
      rcases List.mem_cons.mp ha with ha1 | ha1 <;> rcases List.mem_cons.mp hb with hb1 | hb1
      · rw [ha1, hb1]
      · subst ha1; exact absurd hk (hU.1 b hb1)
      · subst hb1; exact absurd hk.symm (hU.1 a ha1)
      · exact ih hU.2 ha1 hb1

theorem cleanup_fold_mem (ids : List String) :
    ∀ d : DB,
      (∀ r : SessionRow,
        r ∈ (ids.foldl (fun d sid =>
          { d with exchanges := d.exchanges.filter (fun e => e.session_id ≠ sid),
                   sessions := d.sessions.filter (fun r => r.session_id ≠ sid) }) d).sessions ↔
        r ∈ d.sessions ∧ r.session_id ∉ ids) ∧
      (∀ e : ExchangeRow,
        e ∈ (ids.foldl (fun d sid =>
          { d with exchanges := d.exchanges.filter (fun e => e.session_id ≠ sid),
                   sessions := d.sessions.filter (fun r => r.session_id ≠ sid) }) d).exchanges ↔
        e ∈ d.exchanges ∧ e.session_id ∉ ids) := by
  induction ids with
  | nil => intro d; simp
  | cons sid rest ih =>
      intro d
      constructor
      · intro r
        rw [List.foldl_cons, (ih _).1 r]
        simp only [List.mem_filter, decide_eq_true_eq, List.mem_cons]
        constructor
        · rintro ⟨⟨hmem, hne⟩, hnin⟩
          exact ⟨hmem, by simp [hne, hnin]⟩
        · rintro ⟨hmem, hnin⟩
          simp only [not_or] at hnin
          exact ⟨⟨hmem, hnin.1⟩, hnin.2⟩
      · intro e
        rw [List.foldl_cons, (ih _).2 e]
        simp only [List.mem_filter, decide_eq_true_eq, List.mem_cons]
        constructor
        · rintro ⟨⟨hmem, hne⟩, hnin⟩
          exact ⟨hmem, by simp [hne, hnin]⟩
        · rintro ⟨hmem, hnin⟩
          simp only [not_or] at hnin
          exact ⟨⟨hmem, hnin.1⟩, hnin.2⟩

/-- C7. `cleanup_old_sessions` returns the number of sessions whose
`created_at` predates `now - maxAgeHours`, keeps exactly the sessions not
older than the cutoff, keeps exactly the exchange rows whose session is not
deleted, and a subsequent `load` of any deleted id returns absent. -/
theorem cleanup_old_sessions_spec (db : DB) (now maxAge : Int)
    (hU : db.sessions.Pairwise (fun a b => a.session_id ≠ b.session_id)) :
    (cleanup_old_sessions db now maxAge).1 =
        (db.sessions.filter (fun r => r.created_at < now - maxAge * 3600)).length ∧
      (∀ r : SessionRow, r ∈ (cleanup_old_sessions db now maxAge).2.sessions ↔
        r ∈ db.sessions ∧ ¬ r.created_at < now - maxAge * 3600) ∧
      (∀ e : ExchangeRow, e ∈ (cleanup_old_sessions db now maxAge).2.exchanges ↔
        e ∈ db.exchanges ∧ ¬ ∃ x ∈ db.sessions,
          x.session_id = e.session_id ∧ x.created_at < now - maxAge * 3600) ∧
      (∀ sid : String,
        (∃ x ∈ db.sessions, x.session_id = sid ∧ x.created_at < now - maxAge * 3600) →
        load (cleanup_old_sessions db now maxAge).2 sid none = none) := by
  have hmemids : ∀ k : String,
      k ∈ (db.sessions.filter (fun r => r.created_at < now - maxAge * 3600)).map
          (fun r => r.session_id) ↔
        ∃ x ∈ db.sessions, x.session_id = k ∧ x.created_at < now - maxAge * 3600 := by
    intro k
    simp only [List.mem_map, List.mem_filter, decide_eq_true_eq]
    constructor
    · rintro ⟨x, ⟨hx, hold⟩, hk⟩
      exact ⟨x, hx, hk, hold⟩
    · rintro ⟨x, hx, hk, hold⟩
      exact ⟨x, ⟨hx, hold⟩, hk⟩
  have hfold := cleanup_fold_mem
    ((db.sessions.filter (fun r => r.created_at < now - maxAge * 3600)).map
      (fun r => r.session_id)) db
  have hsessions : ∀ r : SessionRow,
      r ∈ (cleanup_old_sessions db now maxAge).2.sessions ↔
        r ∈ db.sessions ∧ ¬ r.created_at < now - maxAge * 3600 := by
    intro r
    rw [cleanup_old_sessions]
    simp only []
    rw [hfold.1 r]
    constructor
    · rintro ⟨hmem, hnin⟩
      refine ⟨hmem, fun hold => hnin ?_⟩
      exact (hmemids r.session_id).mpr ⟨r, hmem, rfl, hold⟩
    · rintro ⟨hmem, hnew⟩
      refine ⟨hmem, fun hin => ?_⟩
      obtain ⟨x, hx, hk, hold⟩ := (hmemids r.session_id).mp hin
      have := pairwise_key_eq hU hx hmem hk
      subst this
      exact hnew hold
  refine ⟨?_, hsessions, ?_, ?_⟩
  · rw [cleanup_old_sessions]
    simp only [List.length_map]
  · intro e
    rw [cleanup_old_sessions]
    simp only []
    rw [hfold.2 e]
    constructor
    · rintro ⟨hmem, hnin⟩
      exact ⟨hmem, fun hex => hnin ((hmemids e.session_id).mpr hex)⟩
    · rintro ⟨hmem, hnex⟩
      exact ⟨hmem, fun hin => hnex ((hmemids e.session_id).mp hin)⟩
  · intro sid hex
    have hfind : (cleanup_old_sessions db now maxAge).2.sessions.find?
        (fun r => r.session_id = sid) = none := by
      rw [List.find?_eq_none]
      intro x hx
      obtain ⟨hmem, hnew⟩ := (hsessions x).mp hx
      simp only [decide_eq_true_eq]
      intro hk
      obtain ⟨x0, hx0, hk0, hold0⟩ := hex
      have := pairwise_key_eq hU hx0 hmem (hk0.trans hk.symm)
      subst this
      exact hnew hold0
    simp [load, hfind]

/-- A database holding one session saved 25 hours before the cleanup instant
and one saved 1 hour before it (timestamps in seconds, cleanup at time 0). -/
def dbC7 : DB :=
  { sessions := [insertSessionRow sampleSession (-90000), insertSessionRow sampleSessionB (-3600)],
    exchanges := [], evaluations := [], coaching_feedback := [], next_exchange_id := 0 }

/-- Witness for C7: the spec's 25-hour/1-hour scenario — `cleanup(24)` deletes
exactly the old session, returns 1, a load of the deleted id is absent, and
the fresh session survives. -/
theorem cleanup_old_sessions_spec_witness :
    (dbC7.sessions.Pairwise (fun a b => a.session_id ≠ b.session_id) ∧
      (∃ x ∈ dbC7.sessions, x.session_id = "s1" ∧ x.created_at < 0 - 24 * 3600)) ∧
      ((cleanup_old_sessions dbC7 0 24).1 = 1 ∧
        load (cleanup_old_sessions dbC7 0 24).2 "s1" none = none ∧
        (load (cleanup_old_sessions dbC7 0 24).2 "s2" none).isSome = true) :=
  ⟨⟨by decide, by decide⟩,
    ⟨((cleanup_old_sessions_spec dbC7 0 24 (by decide)).1).trans (by decide),
      (cleanup_old_sessions_spec dbC7 0 24 (by decide)).2.2.2 "s1" (by decide),
      by decide⟩⟩

end InterViewAI
